import Mathlib

/-!
Verification of the session / cache / retry core of the metadata-quality
platform backend. The definitions below are shallow embeddings of:

* `backend/app/services/cache.py`    — `QueryResultCache`, `MetadataCache`
* `backend/app/services/session.py`  — `SnowflakeSession`, `SessionManager`
* `backend/app/routers/mdlh.py`      — `MdlhSessionContext.execute_query`
  and its error-classification helpers
* `backend/app/services/snowflake.py` — `SnowflakeService._validate_identifier`

Conventions of the embedding:

* Wall-clock time (`datetime.utcnow()`) is passed explicitly as a natural
  number of seconds (`now : Nat`).  Python compares a possibly negative
  `timedelta` against a non-negative TTL; natural-number truncated
  subtraction gives the same boolean outcome, since a negative timedelta
  never exceeds a non-negative TTL and `Nat` subtraction clamps at 0.
* Python's `OrderedDict` is a `List (key × value)` whose head is the
  oldest (least-recently-used) entry; `move_to_end` removes and appends,
  `popitem(last=False)` drops the head, and assignment to an existing key
  keeps the key's position.
* The SHA-256 key derivation `QueryResultCache._make_key` is not modelled
  (cryptographic hash); cache operations take the already-computed key
  string.  Distinct queries are modelled as distinct keys, matching the
  spec's stated assumption that hash collisions are ignored.
* I/O-dependent results (connection liveness probes, warehouse-resume
  outcomes, per-attempt query outcomes) are inputs to the functions that
  consume them.
-/

/-! ## String helpers (Python `str.lower`, `str.upper`, `startswith`, `in`) -/

/-- Python `str.lower()` restricted to the character-level map; on the ASCII
error messages and identifiers this development evaluates it on, it agrees
with CPython. -/
def pyLower (s : String) : String := ⟨s.data.map Char.toLower⟩

/-- Python `str.upper()` restricted to the character-level map; identifiers
reaching `.upper()` in the source are ASCII, where the two agree. -/
def pyUpper (s : String) : String := ⟨s.data.map Char.toUpper⟩

/-- Python `key.startswith(p)`. -/
def strStartsWith (s p : String) : Bool := p.data.isPrefixOf s.data

/-- Auxiliary scan: does `p` occur as a contiguous run inside the list? -/
def subOccurs (p : List Char) : List Char → Bool
  | [] => p.isEmpty
  | c :: t => p.isPrefixOf (c :: t) || subOccurs p t

/-- Python `p in s` (substring containment). -/
def containsSub (s p : String) : Bool := subOccurs p.data s.data

/-! ## Rows -/

/-- A result row, as produced by `execute_query`: column name to rendered
value. -/
abbrev Row := List (String × String)

/-- A query result: a list of rows. -/
abbrev Rows := List Row

/-! ## Association-list primitives shared by the dict-backed structures -/

/-- Assignment to a key that is known to be present: Python dict assignment,
which keeps the key's position in an `OrderedDict`. -/
def alUpdate {β : Type} (l : List (String × β)) (k : String) (v : β) :
    List (String × β) :=
  l.map (fun kv => if kv.1 == k then (k, v) else kv)

/-- Python `d[k] = v`: update in place when present, append when fresh. -/
def alSet {β : Type} (l : List (String × β)) (k : String) (v : β) :
    List (String × β) :=
  if (l.lookup k).isSome then alUpdate l k v else l ++ [(k, v)]

/-- Python `del d[k]` / `d.pop(k)`: remove the (unique) binding of `k`. -/
def alRemove {β : Type} (l : List (String × β)) (k : String) :
    List (String × β) :=
  l.eraseP (fun kv => kv.1 == k)

/-! ## QueryResultCache (`backend/app/services/cache.py`) -/

/-- Entry stored by `QueryResultCache.set`: the rows, the caching
timestamp, and the first 100 characters of the query text kept for
debugging. -/
structure CacheEntry where
  data : Rows
  cached_at : Nat
  query : String
deriving DecidableEq

/-- State of a `QueryResultCache`: the `OrderedDict` (head = least recently
used), `maxsize`, TTL in seconds, and the hit/miss counters. -/
structure QueryResultCache where
  cache : List (String × CacheEntry)
  maxsize : Nat
  ttl : Nat
  hits : Nat
  misses : Nat
deriving DecidableEq

/-- Constructor `QueryResultCache.__init__(maxsize, ttl_seconds)`. -/
def QueryResultCache.init (maxsize ttl_seconds : Nat) : QueryResultCache :=
  ⟨[], maxsize, ttl_seconds, 0, 0⟩

/-- Eviction loop of `QueryResultCache.set`:
`while len(self._cache) >= self._maxsize: self._cache.popitem(last=False)`.
The Python loop presupposes `maxsize >= 1` (with `maxsize = 0` and an empty
dict, `popitem` would raise); theorems about `set` carry that hypothesis. -/
def evictToCap (maxsize : Nat) : List (String × CacheEntry) →
    List (String × CacheEntry)
  | [] => []
  | x :: xs => if xs.length + 1 ≥ maxsize then evictToCap maxsize xs else x :: xs

/-- Method `QueryResultCache.get` (after key computation): returns the
cached rows, or `none` on a miss, together with the updated cache state.
An expired entry is deleted lazily and counted as a miss; a hit moves the
entry to the most-recently-used position and bumps the hit counter. -/
def QueryResultCache.get (c : QueryResultCache) (now : Nat) (key : String) :
    Option Rows × QueryResultCache :=
  match c.cache.lookup key with
  | none => (none, { c with misses := c.misses + 1 })
  | some entry =>
    if now - entry.cached_at > c.ttl then
      (none, { c with cache := alRemove c.cache key, misses := c.misses + 1 })
    else
      (some entry.data,
       { c with cache := alRemove c.cache key ++ [(key, entry)],
                hits := c.hits + 1 })

/-- Method `QueryResultCache.set` (after key computation): evict from the
least-recently-used end while at or above capacity, then write the entry.
Assignment to an existing key keeps its position (OrderedDict semantics). -/
def QueryResultCache.set (c : QueryResultCache) (now : Nat) (key : String)
    (query : String) (data : Rows) : QueryResultCache :=
  let entry : CacheEntry := ⟨data, now, ⟨query.data.take 100⟩⟩
  { c with cache := alSet (evictToCap c.maxsize c.cache) key entry }

/-- Folding `set` over a list of keys, all with the same timestamp and
data: the "insert N+1 distinct entries" experiment of the spec. -/
def QueryResultCache.setList (c : QueryResultCache) (now : Nat)
    (ks : List String) (data : Rows) : QueryResultCache :=
  ks.foldl (fun acc k => acc.set now k k data) c

/-! ## MetadataCache (`backend/app/services/cache.py`) -/

/-- Entry of one metadata sub-cache: the payload plus its caching
timestamp. -/
structure MDEntry (α : Type) where
  data : α
  cached_at : Nat
deriving DecidableEq

/-- State of a `MetadataCache`: four independent dicts (databases keyed by
account, schemas by `account/database`, tables by
`account/database/schema`, columns by `account/database/schema/table`),
each with its own TTL in seconds. -/
structure MetadataCache where
  databases : List (String × MDEntry (List String))
  schemas : List (String × MDEntry (List String))
  tables : List (String × MDEntry Rows)
  columns : List (String × MDEntry Rows)
  ttl_databases : Nat
  ttl_schemas : Nat
  ttl_tables : Nat
  ttl_columns : Nat
deriving DecidableEq

/-- Method `MetadataCache.invalidate_database`: drop every schema, table
and column entry whose key starts with `f"{account}/{database}"`; the
database-list dict is not touched. -/
def MetadataCache.invalidate_database (mc : MetadataCache)
    (account database : String) : MetadataCache :=
  let pre := account ++ "/" ++ database
  { mc with
    schemas := mc.schemas.filter (fun kv => !(strStartsWith kv.1 pre)),
    tables := mc.tables.filter (fun kv => !(strStartsWith kv.1 pre)),
    columns := mc.columns.filter (fun kv => !(strStartsWith kv.1 pre)) }

/-! ## SnowflakeSession and SessionManager (`backend/app/services/session.py`) -/

/-- A `SnowflakeSession`: connection metadata plus usage bookkeeping.  The
underlying network connection is abstracted to the outcome of its liveness
probe (`alive`, the result `is_alive()` would observe) and a `closed` flag
set by `close()`. -/
structure SnowflakeSession where
  user : String
  account : String
  warehouse : String
  database : String
  schema : String
  role : Option String
  created_at : Nat
  last_used : Nat
  query_count : Nat
  alive : Bool
  closed : Bool
deriving DecidableEq

/-- Method `SnowflakeSession.touch`: refresh `last_used` and bump the query
counter. -/
def SnowflakeSession.touch (s : SnowflakeSession) (now : Nat) :
    SnowflakeSession :=
  { s with last_used := now, query_count := s.query_count + 1 }

/-- Method `SnowflakeSession.is_expired(max_idle_minutes)`:
`datetime.utcnow() - self.last_used > timedelta(minutes=max_idle_minutes)`,
with time in seconds. -/
def SnowflakeSession.is_expired (s : SnowflakeSession) (now : Nat)
    (max_idle_minutes : Nat) : Bool :=
  now - s.last_used > max_idle_minutes * 60

/-- Method `SnowflakeSession.is_alive`: the probe outcome recorded in the
state. -/
def SnowflakeSession.is_alive (s : SnowflakeSession) : Bool := s.alive

/-- Method `SnowflakeSession.close`: best-effort close of the underlying
connection. -/
def SnowflakeSession.close (s : SnowflakeSession) : SnowflakeSession :=
  { s with closed := true }

/-- State of a `SessionManager`: the registry dict plus its idle-timeout
configuration. -/
structure SessionManager where
  sessions : List (String × SnowflakeSession)
  max_idle_minutes : Nat
deriving DecidableEq

/-- Method `SessionManager._remove_session_unsafe` (caller holds the lock):
pop the id and close the session; reports whether a session was removed,
the new registry state, and the session that was closed (so that closing
is observable in the model). -/
def SessionManager.remove_session_locked (m : SessionManager) (sid : String) :
    Bool × SessionManager × Option SnowflakeSession :=
  match m.sessions.lookup sid with
  | none => (false, m, none)
  | some s => (true, { m with sessions := alRemove m.sessions sid }, some s.close)

/-- Method `SessionManager.get_session`: absent id yields `none`; an
expired or probe-dead session is removed-and-closed and `none` is
returned; otherwise the session is touched and returned.  The third
component is the session closed during the call, if any. -/
def SessionManager.get_session (m : SessionManager) (now : Nat) (sid : String) :
    Option SnowflakeSession × SessionManager × Option SnowflakeSession :=
  match m.sessions.lookup sid with
  | none => (none, m, none)
  | some s =>
    if s.is_expired now m.max_idle_minutes then
      let r := m.remove_session_locked sid
      (none, r.2.1, r.2.2)
    else if !s.is_alive then
      let r := m.remove_session_locked sid
      (none, r.2.1, r.2.2)
    else
      let s' := s.touch now
      (some s', { m with sessions := alUpdate m.sessions sid s' }, none)

/-- Snapshot returned by `SessionManager.get_stats` (the fields the claims
observe). -/
structure SessionStats where
  active_sessions : Nat
  max_idle_minutes : Nat
deriving DecidableEq

/-- Method `SessionManager.get_stats`. -/
def SessionManager.get_stats (m : SessionManager) : SessionStats :=
  ⟨m.sessions.length, m.max_idle_minutes⟩

/-! ## Retrying query executor (`backend/app/routers/mdlh.py`,
`MdlhSessionContext`) -/

/-- Class attribute `RETRYABLE_ERROR_PATTERNS`. -/
def RETRYABLE_ERROR_PATTERNS : List String :=
  ["connection", "network", "timeout", "socket", "communication",
   "not connected", "connection reset"]

/-- Class attribute `WAREHOUSE_SUSPENDED_PATTERNS`. -/
def WAREHOUSE_SUSPENDED_PATTERNS : List String :=
  ["no active warehouse", "warehouse cannot be used"]

/-- Class attribute `WAREHOUSE_SUSPENDED_KEYWORDS` (both keywords of a pair
must occur). -/
def WAREHOUSE_SUSPENDED_KEYWORDS : List (String × String) :=
  [("warehouse", "suspend"), ("warehouse", "not running"),
   ("warehouse", "starting")]

/-- Class attribute `MAX_RETRIES`: retry attempts after the initial
failure. -/
def MAX_RETRIES : Nat := 2

/-- Method `MdlhSessionContext._is_retryable_error`, on the error's string
rendering. -/
def is_retryable_error (errMsg : String) : Bool :=
  let m := pyLower errMsg
  RETRYABLE_ERROR_PATTERNS.any (fun p => containsSub m p)

/-- Method `MdlhSessionContext._is_warehouse_suspended_error`, on the
error's string rendering. -/
def is_warehouse_suspended_error (errMsg : String) : Bool :=
  let m := pyLower errMsg
  WAREHOUSE_SUSPENDED_PATTERNS.any (fun p => containsSub m p) ||
  WAREHOUSE_SUSPENDED_KEYWORDS.any
    (fun kw => containsSub m kw.1 && containsSub m kw.2)

/-- Outcome of one query attempt against the connection (an input to the
model: the remote engine's behaviour at that attempt). -/
inductive QueryOutcome where
  | success (rows : Rows)
  | failure (errMsg : String)
deriving DecidableEq

/-- Errors `execute_query` can raise: the re-raised original error, or
`SessionExpiredError`. -/
inductive ExecError where
  | queryError (errMsg : String)
  | sessionExpired (errMsg : String)
deriving DecidableEq

/-- Observable side effects of one `execute_query` call: how many attempts
were made and how many warehouse-resume commands were issued. -/
structure ExecTrace where
  attempts : Nat
  resume_calls : Nat
deriving DecidableEq

/-- Loop body of `MdlhSessionContext.execute_query`
(`for attempt in range(self.MAX_RETRIES + 1)`): `outcome n` is the result
of the n-th attempt, `resume_ok n` whether the resume issued after the
n-th attempt succeeds, `verify_ok n` whether the liveness probe after the
n-th attempt succeeds.  A suspended-warehouse failure with budget left
issues a resume and retries on success, re-raises on resume failure; a
retryable failure with budget left retries when the probe passes and
raises `SessionExpiredError` when it fails; anything else, or a failure on
the last attempt, re-raises.  The fuel-0 case is the dead code after the
loop (`raise RuntimeError("Query failed without error details")`). -/
def execute_query_loop (outcome : Nat → QueryOutcome)
    (resume_ok verify_ok : Nat → Bool) :
    Nat → Nat → ExecTrace → Except ExecError Rows × ExecTrace
  | _, 0, tr => (.error (.queryError "Query failed without error details"), tr)
  | attempt, fuel + 1, tr =>
    match outcome attempt with
    | .success rows => (.ok rows, { tr with attempts := tr.attempts + 1 })
    | .failure e =>
      let tr1 : ExecTrace := { tr with attempts := tr.attempts + 1 }
      if attempt < MAX_RETRIES && is_warehouse_suspended_error e then
        if resume_ok attempt then
          execute_query_loop outcome resume_ok verify_ok (attempt + 1) fuel
            { tr1 with resume_calls := tr1.resume_calls + 1 }
        else
          (.error (.queryError e),
           { tr1 with resume_calls := tr1.resume_calls + 1 })
      else if attempt < MAX_RETRIES && is_retryable_error e then
        if verify_ok attempt then
          execute_query_loop outcome resume_ok verify_ok (attempt + 1) fuel tr1
        else
          (.error (.sessionExpired "Snowflake connection lost - please reconnect"),
           tr1)
      else (.error (.queryError e), tr1)

/-- Method `MdlhSessionContext.execute_query`: run the retry loop from
attempt 0 with the full budget. -/
def execute_query (outcome : Nat → QueryOutcome)
    (resume_ok verify_ok : Nat → Bool) : Except ExecError Rows × ExecTrace :=
  execute_query_loop outcome resume_ok verify_ok 0 (MAX_RETRIES + 1) ⟨0, 0⟩

/-! ## Identifier validator (`backend/app/services/snowflake.py`) -/

/-- First-character class of `IDENTIFIER_REGEX`: `[A-Za-z_]`. -/
def isIdentStart (c : Char) : Bool :=
  ( 'A' ≤ c && c ≤ 'Z') || ( 'a' ≤ c && c ≤ 'z') || c == '_'

/-- Continuation class of `IDENTIFIER_REGEX`: `[A-Za-z0-9_$]`. -/
def isIdentCont (c : Char) : Bool :=
  isIdentStart c || ( '0' ≤ c && c ≤ '9') || c == '$'

/-- Core shape of `^[A-Za-z_][A-Za-z0-9_$]*$` on a character list. -/
def identCore : List Char → Bool
  | [] => false
  | c :: cs => isIdentStart c && cs.all isIdentCont

/-- Truthiness of `IDENTIFIER_REGEX.match(s)` under Python `re` semantics:
the anchored pattern matches the whole string, or — because Python's `$`
also matches just before a newline at the end of the string — the whole
string minus one trailing newline. -/
def pyRegexMatch (s : String) : Bool :=
  identCore s.data ||
  (s.data.getLast? == some '\n' && identCore s.data.dropLast)

/-- Method `SnowflakeService._validate_identifier`:
`if not name or not IDENTIFIER_REGEX.match(name): raise ValueError(...)`,
else `return name.upper()`. -/
def validate_identifier (name : String) : Except String String :=
  if name.data.isEmpty || !pyRegexMatch name then
    .error ("Invalid SQL identifier: " ++ name)
  else
    .ok (pyUpper name)

/-! ## Association-list lemmas -/

/-- Lookup steps through a head with a different key. -/
theorem lookup_cons_ne {β : Type} (k a : String) (b : β) (t : List (String × β))
    (h : (k == a) = false) : List.lookup k ((a, b) :: t) = List.lookup k t := by
  simp [List.lookup, h]

/-- Lookup finds the head when the keys agree. -/
theorem lookup_cons_eq {β : Type} (k a : String) (b : β) (t : List (String × β))
    (h : (k == a) = true) : List.lookup k ((a, b) :: t) = some b := by
  simp [List.lookup, h]

/-- A key outside the key list is not found. -/
theorem lookup_eq_none_of_not_mem_keys {β : Type} (k : String) :
    ∀ l : List (String × β), k ∉ l.map Prod.fst → List.lookup k l = none := by
  intro l
  induction l with
  | nil => intro _; rfl
  | cons hd t ih =>
    intro h
    obtain ⟨a, b⟩ := hd
    have hka : (k == a) = false := by
      apply beq_eq_false_iff_ne.mpr
      intro hEq
      exact h (by simp [hEq])
    rw [lookup_cons_ne k a b t hka]
    exact ih (fun hm => h (by simp at hm ⊢; right; exact hm))

/-- A successful lookup produces a member of the list. -/
theorem mem_of_lookup_eq_some {β : Type} (k : String) (v : β) :
    ∀ l : List (String × β), List.lookup k l = some v → (k, v) ∈ l := by
  intro l
  induction l with
  | nil => intro h; simp [List.lookup] at h
  | cons hd t ih =>
    intro h
    obtain ⟨a, b⟩ := hd
    by_cases hka : (k == a) = true
    · rw [lookup_cons_eq k a b t hka] at h
      have : k = a := beq_iff_eq.mp hka
      simp [this, ← Option.some_inj.mp h]
    · rw [lookup_cons_ne k a b t (by simp_all)] at h
      exact List.mem_cons_of_mem _ (ih h)

/-- Appending on the right does not disturb a lookup that misses on the
left. -/
theorem lookup_append_left_none {β : Type} (k : String) :
    ∀ l₁ l₂ : List (String × β), List.lookup k l₁ = none →
      List.lookup k (l₁ ++ l₂) = List.lookup k l₂ := by
  intro l₁
  induction l₁ with
  | nil => intro _ _; rfl
  | cons hd t ih =>
    intro l₂ h
    obtain ⟨a, b⟩ := hd
    by_cases hka : (k == a) = true
    · rw [lookup_cons_eq k a b t hka] at h; exact absurd h (by simp)
    · have hka' : (k == a) = false := by simp_all
      rw [lookup_cons_ne k a b t hka'] at h
      rw [List.cons_append, lookup_cons_ne k a b _ hka']
      exact ih l₂ h

/-- In-place update of a present key is observed by lookup. -/
theorem lookup_alUpdate_self {β : Type} (k : String) (v : β) :
    ∀ l : List (String × β), (List.lookup k l).isSome = true →
      List.lookup k (alUpdate l k v) = some v := by
  intro l
  induction l with
  | nil => intro h; simp [List.lookup] at h
  | cons hd t ih =>
    intro h
    obtain ⟨a, b⟩ := hd
    by_cases hka : (k == a) = true
    · have hak : (a == k) = true := by
        rw [beq_iff_eq] at hka ⊢; exact hka.symm
      simp only [alUpdate, List.map_cons, hak, if_pos]
      exact lookup_cons_eq k k v _ (by simp)
    · have hka' : (k == a) = false := by simp_all
      have hak : (a == k) = false := by
        rw [beq_eq_false_iff_ne] at hka' ⊢; exact fun hEq => hka' hEq.symm
      rw [lookup_cons_ne k a b t hka'] at h
      simp only [alUpdate, List.map_cons, hak, if_neg, Bool.false_eq_true,
        not_false_iff]
      rw [lookup_cons_ne k a b _ hka']
      exact ih h

/-- In-place update does not change the key sequence. -/
theorem keys_alUpdate {β : Type} (k : String) (v : β) :
    ∀ l : List (String × β), (alUpdate l k v).map Prod.fst = l.map Prod.fst := by
  intro l
  induction l with
  | nil => rfl
  | cons hd t ih =>
    obtain ⟨a, b⟩ := hd
    simp only [alUpdate, List.map_cons] at ih ⊢
    by_cases hak : (a == k) = true
    · rw [if_pos hak, ih]
      simp [beq_iff_eq.mp hak]
    · rw [if_neg hak, ih]

/-- Writing a key makes it the value lookup returns, whether the key was
fresh (appended) or present (updated in place). -/
theorem lookup_alSet_self {β : Type} (k : String) (v : β) (l : List (String × β)) :
    List.lookup k (alSet l k v) = some v := by
  unfold alSet
  by_cases h : (List.lookup k l).isSome = true
  · rw [if_pos h]; exact lookup_alUpdate_self k v l h
  · have hnone : List.lookup k l = none := by
      cases hl : List.lookup k l with
      | none => rfl
      | some w => rw [hl] at h; simp at h
    rw [if_neg (by simp [hnone])]
    rw [lookup_append_left_none k l _ hnone]
    exact lookup_cons_eq k k v [] (by simp)

/-- Writing a fresh key appends it. -/
theorem alSet_fresh {β : Type} (k : String) (v : β) (l : List (String × β))
    (h : List.lookup k l = none) : alSet l k v = l ++ [(k, v)] := by
  unfold alSet
  rw [if_neg (by simp [h])]

/-- Deleting a key removes it for lookup, provided keys are unique (a dict
invariant). -/
theorem lookup_alRemove_self {β : Type} (k : String) :
    ∀ l : List (String × β), (l.map Prod.fst).Nodup →
      List.lookup k (alRemove l k) = none := by
  intro l
  induction l with
  | nil => intro _; rfl
  | cons hd t ih =>
    intro hnd
    obtain ⟨a, b⟩ := hd
    simp only [List.map_cons, List.nodup_cons] at hnd
    by_cases hak : (a == k) = true
    · have hak' : a = k := beq_iff_eq.mp hak
      simp only [alRemove, List.eraseP_cons, hak, cond_true]
      apply lookup_eq_none_of_not_mem_keys
      rw [← hak']; exact hnd.1
    · have hak' : (a == k) = false := by simp_all
      have hka : (k == a) = false := by
        rw [beq_eq_false_iff_ne] at hak' ⊢
        exact fun hEq => hak' hEq.symm
      simp only [alRemove, List.eraseP_cons, hak', cond_false]
      rw [lookup_cons_ne k a b _ hka]
      exact ih hnd.2

/-- Deleting a present key shrinks the dict by exactly one entry. -/
theorem length_alRemove_of_lookup_some {β : Type} (k : String) (v : β)
    (l : List (String × β)) (h : List.lookup k l = some v) :
    (alRemove l k).length = l.length - 1 := by
  apply List.length_eraseP_of_mem (mem_of_lookup_eq_some k v l h)
  simp

/-- Filtering out every key satisfying `p` makes such keys unfindable. -/
theorem lookup_filter_out {β : Type} (p : String → Bool) (k : String)
    (hp : p k = true) :
    ∀ l : List (String × β),
      List.lookup k (l.filter (fun kv => !(p kv.1))) = none := by
  intro l
  induction l with
  | nil => rfl
  | cons hd t ih =>
    obtain ⟨a, b⟩ := hd
    by_cases hpa : p a = true
    · simp only [List.filter_cons, hpa, Bool.not_true, Bool.false_eq_true,
        if_neg, not_false_iff]
      exact ih
    · have hka : (k == a) = false := by
        rw [beq_eq_false_iff_ne]
        intro hEq
        rw [hEq] at hp
        exact hpa hp
      simp only [List.filter_cons, hpa, Bool.not_false]
      simp only [Bool.not_eq_true'] at hpa
      simp only [hpa, Bool.not_false, if_pos]
      rw [lookup_cons_ne k a b _ hka]
      exact ih

/-! ## Lemmas about the query-cache operations -/

/-- The eviction loop does nothing below capacity. -/
theorem evictToCap_of_lt : ∀ (l : List (String × CacheEntry)) (m : Nat),
    l.length < m → evictToCap m l = l := by
  intro l m h
  cases l with
  | nil => rfl
  | cons x xs =>
    unfold evictToCap
    rw [if_neg]
    simp only [List.length_cons] at h
    omega

/-- At exactly full capacity (at least 1), the eviction loop drops exactly
the least-recently-used entry. -/
theorem evictToCap_of_eq : ∀ (l : List (String × CacheEntry)) (m : Nat),
    l.length = m → 1 ≤ m → evictToCap m l = l.tail := by
  intro l m h hm
  cases l with
  | nil => simp at h; omega
  | cons x xs =>
    unfold evictToCap
    rw [if_pos]
    · rw [evictToCap_of_lt]
      · rfl
      · simp only [List.length_cons] at h; omega
    · simp only [List.length_cons] at h; omega

/-- Keys mapped through a graph-style function are exactly the original
list. -/
theorem keys_graph_map (f : String → CacheEntry) :
    ∀ ks : List String, (ks.map (fun k => (k, f k))).map Prod.fst = ks := by
  intro ks
  rw [List.map_map]
  exact List.map_id ks

/-- Lookup misses on a graph-style map when the key is not in the key
list. -/
theorem lookup_graph_map_of_not_mem (f : String → CacheEntry) (k : String)
    (ks : List String) (h : k ∉ ks) :
    List.lookup k (ks.map (fun x => (x, f x))) = none := by
  apply lookup_eq_none_of_not_mem_keys
  rw [keys_graph_map]
  exact h

/-- Structure bookkeeping of `set`: only the `cache` field changes. -/
theorem set_fields (c : QueryResultCache) (now : Nat) (key query : String)
    (data : Rows) :
    (c.set now key query data).maxsize = c.maxsize ∧
    (c.set now key query data).ttl = c.ttl ∧
    (c.set now key query data).hits = c.hits ∧
    (c.set now key query data).misses = c.misses := by
  exact ⟨rfl, rfl, rfl, rfl⟩

/-- Setting a fresh key strictly below capacity appends the new entry at
the most-recently-used end. -/
theorem set_fresh_below_cap (c : QueryResultCache) (now : Nat)
    (key query : String) (data : Rows)
    (hlen : c.cache.length < c.maxsize)
    (hfresh : List.lookup key c.cache = none) :
    (c.set now key query data).cache
      = c.cache ++ [(key, ⟨data, now, ⟨query.data.take 100⟩⟩)] := by
  unfold QueryResultCache.set
  rw [evictToCap_of_lt c.cache c.maxsize hlen]
  exact alSet_fresh key _ c.cache hfresh

/-- Round-trip: a `set` immediately observed by a `get` on the same key,
within TTL, returns exactly the rows that were written. -/
theorem get_after_set (c : QueryResultCache) (now₁ now₂ : Nat)
    (key query : String) (data : Rows) (h : now₂ - now₁ ≤ c.ttl) :
    ((c.set now₁ key query data).get now₂ key).1 = some data := by
  unfold QueryResultCache.get
  have hl : List.lookup key (c.set now₁ key query data).cache
      = some ⟨data, now₁, ⟨query.data.take 100⟩⟩ := by
    unfold QueryResultCache.set
    exact lookup_alSet_self key _ _
  have httl : (c.set now₁ key query data).ttl = c.ttl := rfl
  have hcond : ¬ (now₂ - now₁ > (c.set now₁ key query data).ttl) := by
    rw [httl]; omega
  simp only [hl]
  rw [if_neg hcond]

/-- Filling an under-capacity cache with distinct fresh keys appends them
in insertion order, oldest first. -/
theorem setList_fresh_fill (now : Nat) (d : Rows) :
    ∀ (ks : List String) (c : QueryResultCache),
      ks.Nodup → (∀ k ∈ ks, List.lookup k c.cache = none) →
      c.cache.length + ks.length ≤ c.maxsize →
      (c.setList now ks d).cache
          = c.cache
            ++ ks.map (fun k => (k, (⟨d, now, ⟨k.data.take 100⟩⟩ : CacheEntry)))
        ∧ (c.setList now ks d).maxsize = c.maxsize := by
  intro ks
  induction ks with
  | nil =>
    intro c _ _ _
    exact ⟨by simp [QueryResultCache.setList], rfl⟩
  | cons k t ih =>
    intro c hnd hfresh hlen
    obtain ⟨hnk, hndt⟩ := List.nodup_cons.mp hnd
    have hk : List.lookup k c.cache = none := hfresh k (by simp)
    have hklen : c.cache.length < c.maxsize := by
      simp only [List.length_cons] at hlen; omega
    have hstep : (c.set now k k d).cache
        = c.cache ++ [(k, ⟨d, now, ⟨k.data.take 100⟩⟩)] :=
      set_fresh_below_cap c now k k d hklen hk
    have hmax : (c.set now k k d).maxsize = c.maxsize := rfl
    have hfold : c.setList now (k :: t) d = (c.set now k k d).setList now t d := by
      simp [QueryResultCache.setList]
    have hfresh' : ∀ k' ∈ t, List.lookup k' (c.set now k k d).cache = none := by
      intro k' hk'
      rw [hstep,
        lookup_append_left_none k' c.cache _
          (hfresh k' (List.mem_cons_of_mem _ hk'))]
      have hne : (k' == k) = false :=
        beq_eq_false_iff_ne.mpr (fun hEq => hnk (hEq ▸ hk'))
      rw [lookup_cons_ne k' k _ [] hne]
      rfl
    have hlen' : (c.set now k k d).cache.length + t.length
        ≤ (c.set now k k d).maxsize := by
      rw [hstep, hmax]
      simp only [List.length_append, List.length_cons, List.length_nil,
        List.length_cons] at hlen ⊢
      omega
    obtain ⟨ih1, ih2⟩ := ih (c.set now k k d) hndt hfresh' hlen'
    refine ⟨?_, ?_⟩
    · rw [hfold, ih1, hstep]
      simp
    · rw [hfold, ih2, hmax]

/-! ## Attempt budget of the retry loop -/

/-- Total attempts made by the retry loop never exceed the starting count
plus the remaining loop iterations. -/
theorem execute_query_loop_attempts_le (outcome : Nat → QueryOutcome)
    (r v : Nat → Bool) :
    ∀ (fuel attempt : Nat) (tr : ExecTrace),
      (execute_query_loop outcome r v attempt fuel tr).2.attempts
        ≤ tr.attempts + fuel := by
  intro fuel
  induction fuel with
  | zero => intro attempt tr; simp [execute_query_loop]
  | succ n ih =>
    intro attempt tr
    unfold execute_query_loop
    cases houtcome : outcome attempt with
    | success rows => simp
    | failure e =>
      simp only []
      split
      · split
        · exact le_trans (ih _ _) (by simp; omega)
        · simp
      · split
        · split
          · exact le_trans (ih _ _) (by simp; omega)
          · simp
        · simp

/-! ## Concrete fixtures used by the claim theorems -/

/-- Error message of the spec's warehouse-suspension scenario. -/
def whSuspendedMsg : String := "Warehouse MYWH is suspended."

/-- Rows fixture 1. -/
def c2_d1 : Rows := [[("v", "1")]]

/-- Rows fixture 2. -/
def c2_d2 : Rows := [[("v", "2")]]

/-- Rows fixture 3. -/
def c2_d3 : Rows := [[("v", "3")]]

/-- Cache state after `set(q1); set(q2)` on a `maxsize=2, ttl=300` cache. -/
def c2_after_q2 : QueryResultCache :=
  ((QueryResultCache.init 2 300).set 0 "q1" "q1" c2_d1).set 0 "q2" "q2" c2_d2

/-- Cache state after `set(q1); set(q2); get(q1); set(q3)`. -/
def c2_final : QueryResultCache :=
  (c2_after_q2.get 0 "q1").2.set 0 "q3" "q3" c2_d3

/-- Cache fixture: an expired entry (cached at 0, TTL 5, read at 100). -/
def c3_expired : QueryResultCache := ⟨[("k", ⟨[], 0, "q"⟩)], 10, 5, 0, 0⟩

/-- Metadata-cache fixture for the scoped-invalidation witness. -/
def c4_mc : MetadataCache :=
  ⟨[("A", ⟨["DB"], 0⟩)],
   [("A/DB", ⟨["S1"], 0⟩)],
   [("A/DB/S1", ⟨[], 0⟩)],
   [("A/DB/S1/T1", ⟨[], 0⟩)],
   600, 300, 120, 120⟩

/-- Session fixture whose liveness probe fails. -/
def c5_dead : SnowflakeSession :=
  ⟨"u", "acct", "WH", "DB", "SC", none, 0, 0, 0, false, false⟩

/-- Manager fixture holding only the probe-dead session. -/
def c5_mgr : SessionManager := ⟨[("sid1", c5_dead)], 30⟩

/-- Session fixture for the idle-boundary witness (`last_used = 0`). -/
def c7_s : SnowflakeSession :=
  ⟨"u", "acct", "WH", "DB", "SC", none, 0, 0, 0, true, false⟩

/-- Old cache entry under key `k1`. -/
def c9_e1 : CacheEntry := ⟨c2_d1, 0, "k1"⟩

/-- Old cache entry under key `k2`. -/
def c9_e2 : CacheEntry := ⟨c2_d2, 0, "k2"⟩

/-- A cache exactly at capacity (`maxsize = 2`, two entries). -/
def c9_cap : QueryResultCache := ⟨[("k1", c9_e1), ("k2", c9_e2)], 2, 300, 0, 0⟩

/-- A cache below capacity (`maxsize = 2`, one entry). -/
def c9_small : QueryResultCache := ⟨[("k1", c9_e1)], 2, 300, 0, 0⟩

/-- Metadata-cache fixture: entries of database `SALES2` under account
`ACCT`, where `SALES` is a proper string prefix of `SALES2`. -/
def c10_mc : MetadataCache :=
  ⟨[("ACCT", ⟨["SALES", "SALES2"], 0⟩)],
   [("ACCT/SALES2", ⟨["PUBLIC"], 0⟩)],
   [("ACCT/SALES2/PUBLIC", ⟨[], 0⟩)],
   [("ACCT/SALES2/PUBLIC/ORDERS", ⟨[], 0⟩)],
   600, 300, 120, 120⟩

/-! ## Claim theorems -/

/-- C1: an attempt failing with `"Warehouse MYWH is suspended."` is
classified as warehouse-suspended; a resume is issued and on successful
resume the query is retried (second conjunct: one failure, one resume, the
retry succeeds — 2 attempts, 1 resume call); when every attempt fails the
same way the budget of 2 retries beyond the initial attempt is exhausted
after 3 total attempts and the error is re-raised as fatal (third
conjunct); and no `execute_query` run ever makes more than 3 attempts
(fourth conjunct). -/
theorem executeQuery_warehouse_suspended_budget :
    is_warehouse_suspended_error whSuspendedMsg = true
    ∧ execute_query (fun _ => .failure whSuspendedMsg)
        (fun _ => true) (fun _ => true)
        = (.error (.queryError whSuspendedMsg), ⟨3, 2⟩)
    ∧ execute_query
        (fun n => if n == 0 then .failure whSuspendedMsg
                  else .success [[("A", "1")]])
        (fun _ => true) (fun _ => true)
        = (.ok [[("A", "1")]], ⟨2, 1⟩)
    ∧ (∀ (outcome : Nat → QueryOutcome) (r v : Nat → Bool),
        (execute_query outcome r v).2.attempts ≤ 3) := by
  refine ⟨by decide, by rfl, by rfl, ?_⟩
  intro outcome r v
  exact le_trans (execute_query_loop_attempts_le outcome r v 3 0 ⟨0, 0⟩)
    (by simp)

/-- C2: on a cache of `maxsize = N`, inserting `N + 1` distinct entries
(`k₀`, then `mid`, then `klast`, with `N = mid.length + 1`) leaves exactly
`N` entries and evicts the least-recently-touched key `k₀` (first
conjunct); concretely, with `maxsize = 2`, after
`set(q1); set(q2); get(q1); set(q3)` the `get` hit refreshed `q1`, `q2`
is evicted, and `q1` and `q3` remain (remaining conjuncts). -/
theorem queryCache_lru_eviction :
    (∀ (k₀ klast : String) (mid : List String) (ttl now : Nat) (d : Rows),
      (k₀ :: (mid ++ [klast])).Nodup →
        (((QueryResultCache.init (mid.length + 1) ttl).setList now
            (k₀ :: (mid ++ [klast])) d).cache.length = mid.length + 1
          ∧ List.lookup k₀ (((QueryResultCache.init (mid.length + 1) ttl).setList
              now (k₀ :: (mid ++ [klast])) d).cache) = none))
    ∧ (c2_after_q2.get 0 "q1").1 = some c2_d1
    ∧ List.lookup "q2" c2_final.cache = none
    ∧ List.lookup "q1" c2_final.cache = some ⟨c2_d1, 0, "q1"⟩
    ∧ List.lookup "q3" c2_final.cache = some ⟨c2_d3, 0, "q3"⟩
    ∧ c2_final.cache.length = 2 := by
  refine ⟨?_, by decide, by decide, by decide, by decide, by decide⟩
  intro k₀ klast mid ttl now d hnd
  rw [← List.cons_append] at hnd
  obtain ⟨h1, _h2, hdisj⟩ := List.nodup_append.mp hnd
  obtain ⟨hk₀mid, hmidnd⟩ := List.nodup_cons.mp h1
  have hk₀mem : k₀ ∈ k₀ :: mid := by simp
  have hk₀klast : k₀ ≠ klast := by
    intro hEq
    exact hdisj hk₀mem (by simp [hEq])
  have hklastmid : klast ∉ mid := by
    intro hmem
    exact hdisj (List.mem_cons_of_mem _ hmem) (by simp)
  have hfill := setList_fresh_fill now d (k₀ :: mid)
      (QueryResultCache.init (mid.length + 1) ttl) h1
      (by intro k _; rfl) (by simp [QueryResultCache.init])
  obtain ⟨hfillc, hfillmax⟩ := hfill
  set A := (QueryResultCache.init (mid.length + 1) ttl).setList now (k₀ :: mid) d
    with hA
  have hAc : A.cache
      = (k₀ :: mid).map
          (fun k => (k, (⟨d, now, ⟨k.data.take 100⟩⟩ : CacheEntry))) := by
    rw [hfillc]; simp [QueryResultCache.init]
  have hAmax : A.maxsize = mid.length + 1 := hfillmax
  have hsplit : (QueryResultCache.init (mid.length + 1) ttl).setList now
      (k₀ :: (mid ++ [klast])) d = A.set now klast klast d := by
    rw [← List.cons_append]
    simp [QueryResultCache.setList, List.foldl_append, hA]
  have hAlen : A.cache.length = mid.length + 1 := by
    rw [hAc]; simp
  have hevict : evictToCap A.maxsize A.cache = A.cache.tail := by
    apply evictToCap_of_eq
    · rw [hAlen, hAmax]
    · rw [hAmax]; omega
  have htail : A.cache.tail
      = mid.map (fun k => (k, (⟨d, now, ⟨k.data.take 100⟩⟩ : CacheEntry))) := by
    rw [hAc]; simp
  have hfreshlast : List.lookup klast
      (mid.map (fun k => (k, (⟨d, now, ⟨k.data.take 100⟩⟩ : CacheEntry))))
      = none :=
    lookup_graph_map_of_not_mem _ klast mid hklastmid
  have hfinalc : (A.set now klast klast d).cache
      = mid.map (fun k => (k, (⟨d, now, ⟨k.data.take 100⟩⟩ : CacheEntry)))
        ++ [(klast, ⟨d, now, ⟨klast.data.take 100⟩⟩)] := by
    show alSet (evictToCap A.maxsize A.cache) klast _ = _
    rw [hevict, htail]
    exact alSet_fresh klast _ _ hfreshlast
  constructor
  · rw [hsplit, hfinalc]
    simp
  · rw [hsplit, hfinalc]
    rw [lookup_append_left_none k₀ _ _
      (lookup_graph_map_of_not_mem _ k₀ mid hk₀mid)]
    rw [lookup_cons_ne k₀ klast _ [] (beq_eq_false_iff_ne.mpr hk₀klast)]
    rfl

/-- Witness for C2 at `maxsize = 2` and keys `a`, `b`, `c`. -/
theorem queryCache_lru_eviction_witness :
    (("a" : String) :: ((["b"] : List String) ++ ["c"])).Nodup
    ∧ (((QueryResultCache.init ((["b"] : List String).length + 1) 300).setList 0
          ("a" :: (["b"] ++ ["c"])) []).cache.length
        = (["b"] : List String).length + 1
      ∧ List.lookup "a"
          (((QueryResultCache.init ((["b"] : List String).length + 1) 300).setList 0
            ("a" :: (["b"] ++ ["c"])) []).cache) = none) :=
  ⟨by decide, queryCache_lru_eviction.1 "a" "c" ["b"] 300 0 [] (by decide)⟩

/-- C3: a `get` on an entry whose age exceeds the TTL misses, bumps the
miss counter, and removes the expired entry lazily; a subsequent `set`
with the same key succeeds and a following `get` within TTL hits,
returning the new rows. -/
theorem queryCache_lazy_expiry :
    ∀ (c : QueryResultCache) (now : Nat) (key : String) (entry : CacheEntry),
      (c.cache.map Prod.fst).Nodup →
      List.lookup key c.cache = some entry →
      now - entry.cached_at > c.ttl →
      ((c.get now key).1 = none
        ∧ (c.get now key).2.misses = c.misses + 1
        ∧ List.lookup key (c.get now key).2.cache = none
        ∧ ∀ (now₂ now₃ : Nat) (q : String) (d : Rows),
            now₃ - now₂ ≤ c.ttl →
            (((c.get now key).2.set now₂ key q d).get now₃ key).1 = some d) := by
  intro c now key entry hnd hlk hexp
  have hg : c.get now key
      = (none, { c with cache := alRemove c.cache key,
                        misses := c.misses + 1 }) := by
    unfold QueryResultCache.get
    simp only [hlk]
    rw [if_pos hexp]
  refine ⟨by rw [hg], by rw [hg], ?_, ?_⟩
  · rw [hg]
    exact lookup_alRemove_self key c.cache hnd
  · intro now₂ now₃ q d h
    apply get_after_set
    have httl : (c.get now key).2.ttl = c.ttl := by rw [hg]
    rw [httl]
    exact h

/-- Witness for C3 on an entry cached at 0 with TTL 5, read at 100. -/
theorem queryCache_lazy_expiry_witness :
    (c3_expired.get 100 "k").1 = none
    ∧ (c3_expired.get 100 "k").2.misses = c3_expired.misses + 1
    ∧ List.lookup "k" (c3_expired.get 100 "k").2.cache = none
    ∧ (((c3_expired.get 100 "k").2.set 100 "k" "q" c2_d1).get 100 "k").1
        = some c2_d1 := by
  have h := queryCache_lazy_expiry c3_expired 100 "k" ⟨[], 0, "q"⟩
    (by decide) (by decide) (by decide)
  exact ⟨h.1, h.2.1, h.2.2.1, h.2.2.2 100 100 "q" c2_d1 (by decide)⟩

/-- C4: `invalidate_database(account, database)` removes every schema,
table and column entry whose key starts with `"{account}/{database}"`
(string-prefix match on the composed key) and leaves the database-list
cache untouched. -/
theorem metadataCache_invalidate_database_scoped :
    ∀ (mc : MetadataCache) (account database : String),
      (∀ k : String, strStartsWith k (account ++ "/" ++ database) = true →
        (List.lookup k (mc.invalidate_database account database).schemas = none
          ∧ List.lookup k (mc.invalidate_database account database).tables = none
          ∧ List.lookup k (mc.invalidate_database account database).columns
              = none))
      ∧ (mc.invalidate_database account database).databases = mc.databases := by
  intro mc account database
  refine ⟨?_, rfl⟩
  intro k hk
  exact ⟨lookup_filter_out
      (fun s => strStartsWith s (account ++ "/" ++ database)) k hk mc.schemas,
    lookup_filter_out
      (fun s => strStartsWith s (account ++ "/" ++ database)) k hk mc.tables,
    lookup_filter_out
      (fun s => strStartsWith s (account ++ "/" ++ database)) k hk mc.columns⟩

/-- Witness for C4 on a concrete metadata cache and key. -/
theorem metadataCache_invalidate_database_scoped_witness :
    strStartsWith "A/DB/S1" ("A" ++ "/" ++ "DB") = true
    ∧ List.lookup "A/DB/S1" (c4_mc.invalidate_database "A" "DB").tables = none
    ∧ (c4_mc.invalidate_database "A" "DB").databases = c4_mc.databases := by
  have h := metadataCache_invalidate_database_scoped c4_mc "A" "DB"
  exact ⟨by decide, (h.1 "A/DB/S1" (by decide)).2.1, h.2⟩

/-- C5: `get_session` returns absent for an unregistered id (first
conjunct); for an expired session or one whose liveness probe fails it
removes the session from the registry, closes its connection, returns
absent, and `get_stats().active_sessions` drops by one (second and third
conjuncts); otherwise it touches the session — updating `last_used` and
the query counter in the registry — and returns it (fourth conjunct). -/
theorem sessionManager_get_session_spec :
    ∀ (m : SessionManager) (now : Nat) (sid : String),
      (List.lookup sid m.sessions = none
        → m.get_session now sid = (none, m, none))
      ∧ (∀ s : SnowflakeSession, (m.sessions.map Prod.fst).Nodup →
          List.lookup sid m.sessions = some s →
          s.is_expired now m.max_idle_minutes = true →
          ((m.get_session now sid).1 = none
            ∧ (m.get_session now sid).2.1.get_stats.active_sessions
                = m.get_stats.active_sessions - 1
            ∧ List.lookup sid (m.get_session now sid).2.1.sessions = none
            ∧ (m.get_session now sid).2.2 = some s.close))
      ∧ (∀ s : SnowflakeSession, (m.sessions.map Prod.fst).Nodup →
          List.lookup sid m.sessions = some s →
          s.is_expired now m.max_idle_minutes = false →
          s.alive = false →
          ((m.get_session now sid).1 = none
            ∧ (m.get_session now sid).2.1.get_stats.active_sessions
                = m.get_stats.active_sessions - 1
            ∧ List.lookup sid (m.get_session now sid).2.1.sessions = none
            ∧ (m.get_session now sid).2.2 = some s.close))
      ∧ (∀ s : SnowflakeSession,
          List.lookup sid m.sessions = some s →
          s.is_expired now m.max_idle_minutes = false →
          s.alive = true →
          ((m.get_session now sid).1 = some (s.touch now)
            ∧ List.lookup sid (m.get_session now sid).2.1.sessions
                = some (s.touch now)
            ∧ (m.get_session now sid).2.2 = none)) := by
  intro m now sid
  refine ⟨?_, ?_, ?_, ?_⟩
  · intro h
    unfold SessionManager.get_session
    simp only [h]
  · intro s hnd hlk hexp
    have hg : m.get_session now sid
        = (none, { m with sessions := alRemove m.sessions sid },
           some s.close) := by
      unfold SessionManager.get_session
      simp only [hlk]
      rw [if_pos hexp]
      unfold SessionManager.remove_session_locked
      simp only [hlk]
    refine ⟨by rw [hg], ?_, ?_, by rw [hg]⟩
    · rw [hg]
      show (alRemove m.sessions sid).length = m.sessions.length - 1
      exact length_alRemove_of_lookup_some sid s m.sessions hlk
    · rw [hg]
      exact lookup_alRemove_self sid m.sessions hnd
  · intro s hnd hlk hexp halive
    have hg : m.get_session now sid
        = (none, { m with sessions := alRemove m.sessions sid },
           some s.close) := by
      unfold SessionManager.get_session
      simp only [hlk]
      rw [if_neg (by simp [hexp])]
      rw [if_pos (by simp [SnowflakeSession.is_alive, halive])]
      unfold SessionManager.remove_session_locked
      simp only [hlk]
    refine ⟨by rw [hg], ?_, ?_, by rw [hg]⟩
    · rw [hg]
      show (alRemove m.sessions sid).length = m.sessions.length - 1
      exact length_alRemove_of_lookup_some sid s m.sessions hlk
    · rw [hg]
      exact lookup_alRemove_self sid m.sessions hnd
  · intro s hlk hexp halive
    have hg : m.get_session now sid
        = (some (s.touch now),
           { m with sessions := alUpdate m.sessions sid (s.touch now) },
           none) := by
      unfold SessionManager.get_session
      simp only [hlk]
      rw [if_neg (by simp [hexp])]
      rw [if_neg (by simp [SnowflakeSession.is_alive, halive])]
    refine ⟨by rw [hg], ?_, by rw [hg]⟩
    rw [hg]
    show List.lookup sid (alUpdate m.sessions sid (s.touch now))
      = some (s.touch now)
    apply lookup_alUpdate_self
    rw [hlk]
    rfl

/-- Witness for C5 on a one-session registry whose session fails its
probe. -/
theorem sessionManager_get_session_spec_witness :
    (c5_mgr.get_session 0 "sid1").1 = none
    ∧ (c5_mgr.get_session 0 "sid1").2.1.get_stats.active_sessions
        = c5_mgr.get_stats.active_sessions - 1
    ∧ List.lookup "sid1" (c5_mgr.get_session 0 "sid1").2.1.sessions = none
    ∧ (c5_mgr.get_session 0 "sid1").2.2 = some c5_dead.close :=
  (sessionManager_get_session_spec c5_mgr 0 "sid1").2.2.1 c5_dead
    (by decide) (by decide) (by decide) (by decide)

/-- C6: `set` immediately followed by `get` with the same key returns the
identical row list, provided the TTL has not elapsed between the two
(round-trip law); `maxsize ≥ 1` reflects the precondition under which the
source's eviction loop is well defined. -/
theorem queryCache_set_get_roundtrip :
    ∀ (c : QueryResultCache) (now₁ now₂ : Nat) (key query : String) (d : Rows),
      1 ≤ c.maxsize → now₂ - now₁ ≤ c.ttl →
      ((c.set now₁ key query d).get now₂ key).1 = some d := by
  intro c now₁ now₂ key query d _ h
  exact get_after_set c now₁ now₂ key query d h

/-- Witness for C6 with a write at time 0 read back at time 10 under a
300-second TTL. -/
theorem queryCache_set_get_roundtrip_witness :
    1 ≤ (QueryResultCache.init 2 300).maxsize
    ∧ (((QueryResultCache.init 2 300).set 0 "q" "q" c2_d1).get 10 "q").1
        = some c2_d1 :=
  ⟨by decide,
   queryCache_set_get_roundtrip (QueryResultCache.init 2 300) 0 10 "q" "q"
     c2_d1 (by decide) (by decide)⟩

/-- C7: `is_expired(max_idle)` is false immediately after `touch()`, false
when the idle time equals the limit exactly, and true once idle time
strictly exceeds the limit. -/
theorem session_is_expired_boundary :
    ∀ (s : SnowflakeSession) (now max_idle_minutes : Nat),
      (s.touch now).is_expired now max_idle_minutes = false
      ∧ (∀ now₂ : Nat, now₂ - s.last_used = max_idle_minutes * 60 →
          s.is_expired now₂ max_idle_minutes = false)
      ∧ (∀ now₂ : Nat, now₂ - s.last_used > max_idle_minutes * 60 →
          s.is_expired now₂ max_idle_minutes = true) := by
  intro s now m
  refine ⟨?_, ?_, ?_⟩
  · simp [SnowflakeSession.is_expired, SnowflakeSession.touch]
  · intro now₂ h
    simp [SnowflakeSession.is_expired, h]
  · intro now₂ h
    simp [SnowflakeSession.is_expired, h]

/-- Witness for C7: with a 30-minute limit and `last_used = 0`, idle 1800
seconds is not expired and idle 1801 seconds is. -/
theorem session_is_expired_boundary_witness :
    (c7_s.touch 100).is_expired 100 30 = false
    ∧ c7_s.is_expired 1800 30 = false
    ∧ c7_s.is_expired 1801 30 = true := by
  have h := session_is_expired_boundary c7_s 100 30
  exact ⟨h.1, h.2.1 1800 (by decide), h.2.2 1801 (by decide)⟩

/-- C8: the identifier validator returns the uppercased identifier when
the raw string matches `^[A-Za-z_][A-Za-z0-9_$]*$` (under the source
regex's Python semantics, as embedded in `pyRegexMatch`) and fails with
the `InvalidIdentifier` error when it does not; it is a pure function of
its argument. -/
theorem validate_identifier_spec :
    ∀ name : String,
      (pyRegexMatch name = true
        → validate_identifier name = .ok (pyUpper name))
      ∧ (pyRegexMatch name = false →
          validate_identifier name
            = .error ("Invalid SQL identifier: " ++ name)) := by
  intro name
  constructor
  · intro h
    have hne : name.data.isEmpty = false := by
      cases hd : name.data with
      | nil =>
        exfalso
        unfold pyRegexMatch at h
        rw [hd] at h
        simp [identCore] at h
      | cons c cs => simp [hd]
    unfold validate_identifier
    rw [hne, h]
    simp
  · intro h
    unfold validate_identifier
    rw [h]
    simp

/-- Witness for C8 on a valid and an invalid identifier. -/
theorem validate_identifier_spec_witness :
    validate_identifier "sales_db" = Except.ok (pyUpper "sales_db")
    ∧ validate_identifier "my-table"
        = Except.error ("Invalid SQL identifier: " ++ "my-table") :=
  ⟨(validate_identifier_spec "sales_db").1 (by decide),
   (validate_identifier_spec "my-table").2 (by decide)⟩

/-- C9: below capacity, `set` on an existing key overwrites the entry in
place — the key order (recency order) is unchanged, so only `get`
refreshes recency (first conjunct); at capacity, `set` runs its eviction
loop even when the key exists, so overwriting `k2` evicts the unrelated
LRU entry `k1` (second conjunct) and overwriting `k1` evicts `k1`'s own
old entry and re-appends it (third conjunct). -/
theorem queryCache_set_recency_eviction :
    (∀ (c : QueryResultCache) (now : Nat) (key query : String) (d : Rows),
      c.cache.length < c.maxsize →
      (List.lookup key c.cache).isSome = true →
      ((c.set now key query d).cache.map Prod.fst = c.cache.map Prod.fst
        ∧ List.lookup key (c.set now key query d).cache
            = some ⟨d, now, ⟨query.data.take 100⟩⟩))
    ∧ (c9_cap.set 5 "k2" "k2" c2_d3).cache = [("k2", ⟨c2_d3, 5, "k2"⟩)]
    ∧ (c9_cap.set 5 "k1" "k1" c2_d3).cache
        = [("k2", c9_e2), ("k1", ⟨c2_d3, 5, "k1"⟩)] := by
  refine ⟨?_, by decide, by decide⟩
  intro c now key query d hlen hsome
  have hset : (c.set now key query d).cache
      = alSet c.cache key ⟨d, now, ⟨query.data.take 100⟩⟩ := by
    show alSet (evictToCap c.maxsize c.cache) key _ = _
    rw [evictToCap_of_lt c.cache c.maxsize hlen]
  constructor
  · rw [hset]
    unfold alSet
    rw [if_pos hsome]
    exact keys_alUpdate key _ c.cache
  · rw [hset]
    exact lookup_alSet_self key _ c.cache

/-- Witness for C9's in-place-overwrite part on a below-capacity cache. -/
theorem queryCache_set_recency_eviction_witness :
    (c9_small.set 7 "k1" "k1" c2_d3).cache.map Prod.fst
        = c9_small.cache.map Prod.fst
    ∧ List.lookup "k1" (c9_small.set 7 "k1" "k1" c2_d3).cache
        = some ⟨c2_d3, 7, ⟨("k1" : String).data.take 100⟩⟩ :=
  queryCache_set_recency_eviction.1 c9_small 7 "k1" "k1" c2_d3
    (by decide) (by decide)

/-- C10: because `invalidate_database` uses a `startswith` match on
`"{account}/{database}"` with no trailing separator, invalidating
database `SALES` under account `ACCT` also removes the schema, table and
column entries of the distinct database `SALES2` (whose name `SALES` is a
string prefix of), while the database list is untouched. -/
theorem metadataCache_invalidate_prefix_collision :
    "SALES" ≠ "SALES2"
    ∧ List.lookup "ACCT/SALES2" c10_mc.schemas = some ⟨["PUBLIC"], 0⟩
    ∧ strStartsWith "ACCT/SALES2" ("ACCT" ++ "/" ++ "SALES") = true
    ∧ List.lookup "ACCT/SALES2"
        (c10_mc.invalidate_database "ACCT" "SALES").schemas = none
    ∧ List.lookup "ACCT/SALES2/PUBLIC"
        (c10_mc.invalidate_database "ACCT" "SALES").tables = none
    ∧ List.lookup "ACCT/SALES2/PUBLIC/ORDERS"
        (c10_mc.invalidate_database "ACCT" "SALES").columns = none
    ∧ (c10_mc.invalidate_database "ACCT" "SALES").databases
        = c10_mc.databases := by
  refine ⟨by decide, by decide, by decide, by decide, by decide, by decide,
    by decide⟩
